import Mathlib

/-!
Verification of the pyley client library (src/pyley.py).

The development shallowly embeds the two cores of the library: the
`CayleyQuad` / `CayleyQuads` data model (normalization, equality, hashing,
record and text serialization) and the fluent gremlin query builder
(`_GremlinQuery`, `GraphObject`, `_Path`, `_Vertex`, `_Morphism`,
`_QueryDefinition`).  Python strings are Lean `String`s, Python values that
flow through the duck-typed interfaces are a closed inductive `PyVal`,
exceptions are an error type threaded through `Except`, and the external
JSON decoder (`json.loads`) is an explicit black-box parameter, as the spec
treats JSON primitives as external collaborators.
-/

namespace Pyley

/-! ### String normalization: `CayleyQuad._clean`

`obj.strip().replace(' ', '_').lower()` for non-`None` inputs.
Whitespace and lowercasing are modelled on the ASCII range. -/

/-- Whitespace stripped by Python `str.strip` (ASCII range): space, tab,
newline, carriage return, vertical tab, form feed. -/
def pyWs (c : Char) : Bool :=
  c.toNat = 32 || c.toNat = 9 || c.toNat = 10 || c.toNat = 13 ||
    c.toNat = 11 || c.toNat = 12

/-- Leading-whitespace removal (the front half of `str.strip`). -/
def lstripL (l : List Char) : List Char := l.dropWhile pyWs

/-- Trailing-whitespace removal (the back half of `str.strip`). -/
def rstripL (l : List Char) : List Char := (l.reverse.dropWhile pyWs).reverse

/-- Python `str.strip()`: whitespace removed from both ends. -/
def stripL (l : List Char) : List Char := rstripL (lstripL l)

/-- One character of `str.replace(' ', '_')`. -/
def replC (c : Char) : Char := if c = ' ' then '_' else c

/-- `_clean` on the character list of a present string:
`strip`, then `replace(' ', '_')`, then `lower` (ASCII `Char.toLower`,
matching CPython for the latin range). -/
def cleanL (l : List Char) : List Char :=
  ((stripL l).map replC).map Char.toLower

/-- `CayleyQuad._clean` on a present (string) value. -/
def pyClean (s : String) : String := String.mk (cleanL s.data)

/-! ### Character-level facts used for idempotence of `_clean` -/

theorem toNat_ofNat_small (n : Nat) (h : n < 0xd800) : (Char.ofNat n).toNat = n := by
  simp [Char.ofNat, Char.ofNatAux, Char.toNat, Nat.isValidChar, h,
    UInt32.toNat, BitVec.toNat_ofNatLt]

theorem char_eq_iff_toNat {a b : Char} : a = b ↔ a.toNat = b.toNat := by
  constructor
  · intro h; rw [h]
  · intro h
    exact Char.eq_of_val_eq (UInt32.ext h)

theorem toLower_toNat_shift (c : Char) (h : 65 ≤ c.toNat ∧ c.toNat ≤ 90) :
    (Char.toLower c).toNat = c.toNat + 32 := by
  simp only [Char.toLower]
  rw [if_pos ⟨h.1, h.2⟩]
  exact toNat_ofNat_small _ (by omega)

theorem toLower_eq_self (c : Char) (h : ¬(65 ≤ c.toNat ∧ c.toNat ≤ 90)) :
    Char.toLower c = c := by
  simp only [Char.toLower]
  rw [if_neg (by exact fun hc => h ⟨hc.1, hc.2⟩)]

theorem toLower_idem (c : Char) : Char.toLower (Char.toLower c) = Char.toLower c := by
  by_cases h : 65 ≤ c.toNat ∧ c.toNat ≤ 90
  · have h2 := toLower_toNat_shift c h
    apply toLower_eq_self
    omega
  · rw [toLower_eq_self c h, toLower_eq_self c h]

theorem replC_toNat (c : Char) : (replC c).toNat = if c.toNat = 32 then 95 else c.toNat := by
  unfold replC
  by_cases h : c = ' '
  · rw [if_pos h, if_pos (by rw [h]; rfl)]
    rfl
  · rw [if_neg h, if_neg (by intro hn; exact h (char_eq_iff_toNat.mpr hn))]

theorem pyWs_false_iff (c : Char) :
    pyWs c = false ↔ (c.toNat ≠ 32 ∧ c.toNat ≠ 9 ∧ c.toNat ≠ 10 ∧
      c.toNat ≠ 13 ∧ c.toNat ≠ 11 ∧ c.toNat ≠ 12) := by
  unfold pyWs
  simp [decide_eq_true_eq]
  tauto

/-- The character transformation applied by `_clean` after stripping. -/
def gch (c : Char) : Char := Char.toLower (replC c)

theorem gch_toNat_ne_ws (c : Char) :
    (gch c).toNat ≠ 32 ∧ ((gch c).toNat = (replC c).toNat ∨
      (gch c).toNat = (replC c).toNat + 32) := by
  unfold gch
  have hr := replC_toNat c
  by_cases h : 65 ≤ (replC c).toNat ∧ (replC c).toNat ≤ 90
  · have := toLower_toNat_shift _ h
    constructor
    · omega
    · right; omega
  · rw [toLower_eq_self _ h]
    constructor
    · by_cases hc : c.toNat = 32
      · rw [if_pos hc] at hr; omega
      · rw [if_neg hc] at hr; omega
    · left; rfl

theorem gch_preserves_nonWs (c : Char) (h : pyWs c = false) : pyWs (gch c) = false := by
  rw [pyWs_false_iff] at h ⊢
  have hr := replC_toNat c
  rw [if_neg h.1] at hr
  rcases gch_toNat_ne_ws c with ⟨h32, hcase⟩
  rcases hcase with he | hs <;> omega

theorem replC_gch (c : Char) : replC (gch c) = gch c := by
  unfold replC
  rw [if_neg]
  intro he
  have : (gch c).toNat = 32 := by rw [he]; rfl
  exact (gch_toNat_ne_ws c).1 this

theorem toLower_gch (c : Char) : Char.toLower (gch c) = gch c := toLower_idem (replC c)

/-! ### List-level facts: `_clean` is idempotent -/

theorem length_dropWhile_le (p : Char → Bool) (l : List Char) :
    (l.dropWhile p).length ≤ l.length := by
  induction l with
  | nil => simp [List.dropWhile]
  | cons a r ih =>
    by_cases h : p a
    · rw [List.dropWhile_cons, if_pos h]
      exact Nat.le_trans ih (Nat.le_succ _)
    · rw [List.dropWhile_cons, if_neg h]

theorem dropWhile_cons_self (p : Char → Bool) (a : Char) (r : List Char)
    (h : p a = false) : (a :: r).dropWhile p = a :: r := by
  rw [List.dropWhile_cons, if_neg (by simp [h])]

theorem dropWhile_head_false (p : Char → Bool) (l : List Char) (a : Char)
    (r : List Char) (h : l.dropWhile p = a :: r) : p a = false := by
  induction l with
  | nil => simp [List.dropWhile] at h
  | cons x xs ih =>
    by_cases hx : p x
    · rw [List.dropWhile_cons, if_pos hx] at h
      exact ih h
    · rw [List.dropWhile_cons, if_neg hx] at h
      cases h
      simpa using hx

theorem lstripL_fixed_head (a : Char) (r : List Char) (h : lstripL (a :: r) = a :: r) :
    pyWs a = false := by
  by_contra hc
  have ha : pyWs a = true := by simpa using hc
  unfold lstripL at h
  rw [List.dropWhile_cons, if_pos (by simp [ha])] at h
  have := length_dropWhile_le pyWs r
  rw [h] at this
  simp at this

theorem lstripL_map_gch (l : List Char) (h : lstripL l = l) :
    lstripL (l.map gch) = l.map gch := by
  cases l with
  | nil => rfl
  | cons a r =>
    have ha := lstripL_fixed_head a r h
    unfold lstripL
    rw [List.map_cons]
    exact dropWhile_cons_self _ _ _ (gch_preserves_nonWs a ha)

theorem lstripL_idem (l : List Char) : lstripL (lstripL l) = lstripL l := by
  unfold lstripL
  rcases hd : l.dropWhile pyWs with _ | ⟨a, r⟩
  · rfl
  · exact dropWhile_cons_self _ _ _ (dropWhile_head_false pyWs l a r hd)

theorem dropWhile_append_last (p : Char → Bool) (a : Char) (xs : List Char)
    (h : p a = false) : (xs ++ [a]).dropWhile p = xs.dropWhile p ++ [a] := by
  induction xs with
  | nil => simp [List.dropWhile, h]
  | cons x r ih =>
    by_cases hx : p x
    · rw [List.cons_append, List.dropWhile_cons, if_pos hx,
        List.dropWhile_cons, if_pos hx]
      exact ih
    · rw [List.cons_append, List.dropWhile_cons, if_neg hx,
        List.dropWhile_cons, if_neg hx, List.cons_append]

theorem rstripL_cons_nonWs (a : Char) (v : List Char) (h : pyWs a = false) :
    rstripL (a :: v) = a :: rstripL v := by
  unfold rstripL
  rw [List.reverse_cons, dropWhile_append_last pyWs a v.reverse h,
    List.reverse_append]
  rfl

theorem lstripL_rstripL (u : List Char) (h : lstripL u = u) :
    lstripL (rstripL u) = rstripL u := by
  cases u with
  | nil => rfl
  | cons a v =>
    have ha := lstripL_fixed_head a v h
    rw [rstripL_cons_nonWs a v ha]
    unfold lstripL
    exact dropWhile_cons_self _ _ _ ha

theorem rstripL_idem (l : List Char) : rstripL (rstripL l) = rstripL l := by
  unfold rstripL
  rw [List.reverse_reverse]
  rw [show (l.reverse.dropWhile pyWs).dropWhile pyWs = l.reverse.dropWhile pyWs from
    lstripL_idem l.reverse]

theorem rstripL_map_gch (l : List Char) (h : rstripL l = l) :
    rstripL (l.map gch) = l.map gch := by
  have hrev : l.reverse.dropWhile pyWs = l.reverse := by
    have := congrArg List.reverse h
    unfold rstripL at this
    rw [List.reverse_reverse] at this
    exact this
  unfold rstripL
  rw [← List.map_reverse]
  rw [show List.dropWhile pyWs (List.map gch l.reverse) = List.map gch l.reverse from
    lstripL_map_gch l.reverse hrev]
  rw [List.map_reverse, List.reverse_reverse]

theorem stripL_map_gch_stripL (l : List Char) :
    stripL ((stripL l).map gch) = (stripL l).map gch := by
  have h1 : lstripL (stripL l) = stripL l :=
    lstripL_rstripL (lstripL l) (lstripL_idem l)
  have h2 : rstripL (stripL l) = stripL l := rstripL_idem (lstripL l)
  show rstripL (lstripL ((stripL l).map gch)) = (stripL l).map gch
  rw [lstripL_map_gch _ h1]
  exact rstripL_map_gch _ h2

theorem cleanL_eq_map_gch (l : List Char) : cleanL l = (stripL l).map gch := by
  unfold cleanL gch
  rw [List.map_map]
  rfl

theorem cleanL_idem (l : List Char) : cleanL (cleanL l) = cleanL l := by
  rw [cleanL_eq_map_gch l]
  unfold cleanL
  rw [stripL_map_gch_stripL l]
  rw [show ((stripL l).map gch).map replC = (stripL l).map gch by
    rw [List.map_map]
    exact List.map_congr_left fun c _ => replC_gch c]
  rw [List.map_map]
  exact List.map_congr_left fun c _ => toLower_gch c

theorem pyClean_idem (s : String) : pyClean (pyClean s) = pyClean s := by
  unfold pyClean
  rw [show (String.mk (cleanL s.data)).data = cleanL s.data from rfl]
  rw [cleanL_idem]

/-! ### The CayleyQuad data model -/

/-- A stored quad: the four canonicalized fields.  All fields pass through
`_clean`, which maps `None` to `None`, so each field is an optional string. -/
structure CayleyQuad where
  subject : Option String
  predicate : Option String
  object : Option String
  label : Option String
deriving DecidableEq, Repr

/-- The Python exceptions that can surface from the embedded code paths.
`notAValidQuad` is the library's own `NotAValidQuadError`; the spec calls it
`InvalidQuadError`.  `invalidParameter` is the invalid-parameter exception
raised by `Intersect`/`Union`/`Follow`/`FollowR`; the spec calls it
`InvalidParameterError`. -/
inductive PErr where
  | typeError
  | valueError
  | attributeError
  | notAValidQuad
  | invalidParameter
deriving DecidableEq, Repr

/-- A closed universe of the Python values that flow through the duck-typed
interfaces (`from_dict`, `from_json`, `__eq__`). -/
inductive PyVal where
  | pStr (s : String)
  | pInt (n : Int)
  | pNone
  | pDict (entries : List (String × PyVal))
  | pList (elems : List PyVal)
  | pTuple (elems : List PyVal)
  | pQuad (q : CayleyQuad)

/-- `_clean` applied to a constructor argument.  `None` maps to `None`, a
string is normalized; any other value has no `.strip` method, so Python
raises `AttributeError`. -/
def cleanVal : PyVal → Except PErr (Option String)
  | .pNone => .ok Option.none
  | .pStr s => .ok (some (pyClean s))
  | _ => .error .attributeError

/-- The `CayleyQuad.__init__` constructor: normalizes and stores the four
fields, in source order subject, predicate, object, label. -/
def quadInit (subject predicate object label : PyVal) : Except PErr CayleyQuad := do
  let s ← cleanVal subject
  let p ← cleanVal predicate
  let o ← cleanVal object
  let l ← cleanVal label
  .ok ⟨s, p, o, l⟩

/-- A stored optional field rendered back to the Python value kept in a
record produced by `to_dict`. -/
def optVal : Option String → PyVal
  | Option.none => .pNone
  | some s => .pStr s

/-- `CayleyQuad.to_dict`: the record `{subject, predicate, object}` with the
`label` key only when the label is present. -/
def CayleyQuad.to_dict (q : CayleyQuad) : List (String × PyVal) :=
  [("subject", optVal q.subject), ("predicate", optVal q.predicate),
   ("object", optVal q.object)] ++
    (match q.label with
     | some l => [("label", PyVal.pStr l)]
     | Option.none => [])

/-- The keyword parameters accepted by `CayleyQuad.__init__`. -/
def allowedKeys : List String := ["subject", "predicate", "object", "label"]

/-- `CayleyQuad.from_dict`: `cls(**obj)` with `TypeError` caught and
re-raised as `NotAValidQuadError`.  Unpacking a non-mapping, a missing
required key or an unexpected keyword each raise `TypeError` in Python, so
each of those becomes `notAValidQuad`; an `AttributeError` raised inside the
constructor (a non-string, non-`None` field value) is not caught. -/
def from_dict (v : PyVal) : Except PErr CayleyQuad :=
  match v with
  | .pDict entries =>
    let ks := entries.map Prod.fst
    if ks.contains "subject" && ks.contains "predicate" && ks.contains "object"
        && ks.all (fun k => allowedKeys.contains k) then
      quadInit ((List.lookup "subject" entries).getD .pNone)
               ((List.lookup "predicate" entries).getD .pNone)
               ((List.lookup "object" entries).getD .pNone)
               ((List.lookup "label" entries).getD .pNone)
    else
      .error .notAValidQuad
  | _ => .error .notAValidQuad

/-- `CayleyQuad.from_json`: `json.loads` then `from_dict`, with `ValueError`
caught and re-raised as `NotAValidQuadError`.  The JSON decoder itself is an
external black box, passed in as `jload`; a decode failure is the
`ValueError` (`json.JSONDecodeError`) case.  Calling `json.loads` on a
non-string raises `TypeError`, which `from_json` does not catch. -/
def from_json (jload : String → Except Unit PyVal) (v : PyVal) : Except PErr CayleyQuad :=
  match v with
  | .pStr s =>
    match jload s with
    | .error _ => .error .notAValidQuad
    | .ok parsed => from_dict parsed
  | _ => .error .typeError

/-- The four-field comparison at the end of `CayleyQuad.__eq__`. -/
def fieldsEq (q r : CayleyQuad) : Bool :=
  q.subject == r.subject && q.predicate == r.predicate &&
    q.object == r.object && q.label == r.label

/-- `CayleyQuad.__eq__`: a `CayleyQuad` is compared field-wise; any other
value is first coerced through `from_dict`, then through `from_json`, with
only `NotAValidQuadError` caught at each stage; when both coercions fail
that way the result is `False`.  Any other exception escapes. -/
def quadEq (jload : String → Except Unit PyVal) (q : CayleyQuad) (other : PyVal) :
    Except PErr Bool :=
  match other with
  | .pQuad r => .ok (fieldsEq q r)
  | _ =>
    match from_dict other with
    | .ok r => .ok (fieldsEq q r)
    | .error .notAValidQuad =>
      match from_json jload other with
      | .ok r => .ok (fieldsEq q r)
      | .error .notAValidQuad => .ok false
      | .error e => .error e
    | .error e => .error e

/-- The hash of one stored field: Python's hash of a string for a present
field, and the fixed hash of `None` for an absent one.  The two are
parameters because CPython's string hash is an external, run-dependent
function. -/
def optHash (hstr : String → Int) (hnone : Int) : Option String → Int
  | Option.none => hnone
  | some s => hstr s

/-- `CayleyQuad.__hash__`:
`3*hash(subject) + 5*hash(predicate) + 7*hash(object) + 11*hash(label)`. -/
def quadHash (hstr : String → Int) (hnone : Int) (q : CayleyQuad) : Int :=
  3 * optHash hstr hnone q.subject + 5 * optHash hstr hnone q.predicate +
    7 * optHash hstr hnone q.object + 11 * optHash hstr hnone q.label

/-! ### The CayleyQuads collection -/

/-- The runtime content of `CayleyQuads.quads`: the default-constructed
instance holds the list literal `[]`, while a caller-supplied set is a
finite set of quads. -/
inductive QuadsContent where
  | plist (elems : List CayleyQuad)
  | pset (s : Finset CayleyQuad)

/-- `CayleyQuads.__init__`: stores the given collection, defaulting to the
list literal `[]` when no argument is given. -/
def quadsInit (quads : Option QuadsContent) : QuadsContent :=
  quads.getD (.plist [])

/-- `CayleyQuads.add_quad`: `self.quads.add(quad)`.  A Python `list` has no
`add` method, so the default-constructed content raises `AttributeError`; a
set inserts with deduplication under quad equality and hashing. -/
def add_quad (c : QuadsContent) (q : CayleyQuad) : Except PErr QuadsContent :=
  match c with
  | .plist _ => .error .attributeError
  | .pset s => .ok (.pset (insert q s))

/-- `CayleyQuads.add_quads`: the statement `self.quads | set(quads)`.  On a
set it computes the union and discards it, leaving the stored content
untouched; on the default list content the `|` operator is unsupported and
raises `TypeError`. -/
def add_quads (c : QuadsContent) (quads : List CayleyQuad) : Except PErr QuadsContent :=
  match c with
  | .plist _ => .error .typeError
  | .pset s =>
    let _discarded := s ∪ quads.toFinset
    .ok (.pset s)

/-! ### The gremlin query builder -/

/-- `_QueryDefinition`: a format token plus the ordered parameters that will
be `%`-substituted into it.  Parameters are stored in their rendered string
form, matching what `%s` interpolation produces for the values the library
passes (strings, and chains via their `str`). -/
structure QueryDefinition where
  token : String
  parameters : List String
deriving DecidableEq, Repr

/-- Positional `%`-substitution over the characters of a format token:
each `%s` (or `%d`) consumes the next parameter. -/
def interpCh : List Char → List String → List Char
  | [], _ => []
  | '%' :: 's' :: rest, a :: args => a.data ++ interpCh rest args
  | '%' :: 'd' :: rest, a :: args => a.data ++ interpCh rest args
  | c :: rest, args => c :: interpCh rest args

/-- `_QueryDefinition.__str__`: `token % parameters` when parameters exist,
the raw token otherwise. -/
def QueryDefinition.render (d : QueryDefinition) : String :=
  if d.parameters.isEmpty then d.token
  else String.mk (interpCh d.token.data d.parameters)

/-- Python `sep.join(strs)`. -/
def joinSep (sep : String) : List String → String
  | [] => ""
  | [a] => a
  | a :: rest => a ++ sep ++ joinSep sep rest

/-- The concrete chain class: `_Vertex` or `_Morphism`. -/
inductive ChainKind where
  | vertex
  | morphism
deriving DecidableEq, Repr

/-- A `_GremlinQuery` chain: its concrete class and its ordered
`queryDeclarations`. -/
structure GremlinQuery where
  kind : ChainKind
  queryDeclarations : List QueryDefinition
deriving DecidableEq, Repr

/-- `_GremlinQuery.__str__`: the declarations rendered and joined with a
dot. -/
def GremlinQuery.str (g : GremlinQuery) : String :=
  joinSep "." (g.queryDeclarations.map QueryDefinition.render)

/-- `_Path.build`: `str(self)`. -/
def GremlinQuery.build (g : GremlinQuery) : String := g.str

/-- `_GremlinQuery._put`: appends one `_QueryDefinition`. -/
def GremlinQuery.put (g : GremlinQuery) (token : String) (parameters : List String) :
    GremlinQuery :=
  { g with queryDeclarations := g.queryDeclarations ++ [⟨token, parameters⟩] }

/-- `_Path.__init__`: a fresh chain holding only its root declaration. -/
def pathInit (kind : ChainKind) (parent : String) : GremlinQuery :=
  ⟨kind, [⟨parent, []⟩]⟩

/-- The values a caller can hand to `Intersect`/`Union`/`Follow`/`FollowR`:
a chain instance, raw text, or some other Python value. -/
inductive QArg where
  | chainArg (g : GremlinQuery)
  | strArg (s : String)
  | intArg (n : Int)
  | noneArg
  | listArg (elems : List String)
deriving DecidableEq, Repr

/-- `isinstance(query, _Vertex)`. -/
def QArg.isVertexInst : QArg → Bool
  | .chainArg g => g.kind == ChainKind.vertex
  | _ => false

/-- `isinstance(query, _Morphism)`. -/
def QArg.isMorphismInst : QArg → Bool
  | .chainArg g => g.kind == ChainKind.morphism
  | _ => false

/-- `type(query) is str`. -/
def QArg.isStr : QArg → Bool
  | .strArg _ => true
  | _ => false

/-- `str(query)`, as the `%s` interpolation in `_put` renders the accepted
argument.  A chain serializes itself; raw text embeds unquoted; the other
variants mirror Python `str` but are rejected before ever being rendered. -/
def QArg.toStr : QArg → String
  | .chainArg g => g.str
  | .strArg s => s
  | .intArg n => toString n
  | .noneArg => "None"
  | .listArg elems =>
    "[" ++ joinSep ", " (elems.map (fun s => "\x27" ++ s ++ "\x27")) ++ "]"

/-- `_Path.Intersect`: rejects anything that is neither a `_Vertex` nor raw
text before appending, then appends one `Intersect(%s)` step.  The result
pairs the (possibly unchanged) chain with the raised exception, if any. -/
def GremlinQuery.Intersect (c : GremlinQuery) (query : QArg) :
    GremlinQuery × Option PErr :=
  if !query.isVertexInst && !query.isStr then
    (c, some .invalidParameter)
  else
    (c.put "Intersect(%s)" [query.toStr], Option.none)

/-- `_Path.Union`: same validation as `Intersect`. -/
def GremlinQuery.Union (c : GremlinQuery) (query : QArg) :
    GremlinQuery × Option PErr :=
  if !query.isVertexInst && !query.isStr then
    (c, some .invalidParameter)
  else
    (c.put "Union(%s)" [query.toStr], Option.none)

/-- `_Path.Follow`: rejects anything that is neither a `_Morphism` nor raw
text. -/
def GremlinQuery.Follow (c : GremlinQuery) (query : QArg) :
    GremlinQuery × Option PErr :=
  if !query.isMorphismInst && !query.isStr then
    (c, some .invalidParameter)
  else
    (c.put "Follow(%s)" [query.toStr], Option.none)

/-- `_Path.FollowR`: same validation as `Follow`. -/
def GremlinQuery.FollowR (c : GremlinQuery) (query : QArg) :
    GremlinQuery × Option PErr :=
  if !query.isMorphismInst && !query.isStr then
    (c, some .invalidParameter)
  else
    (c.put "FollowR(%s)" [query.toStr], Option.none)

/-- `_Path.Is`: one step whose single parameter is the node ids joined by
the separator quote-comma-space-quote. -/
def GremlinQuery.Is (c : GremlinQuery) (nodes : List String) : GremlinQuery :=
  c.put "Is(\x27%s\x27)" [joinSep "\x27, \x27" nodes]

/-- `_Vertex.All`: appends the zero-argument `All()` step. -/
def GremlinQuery.All (c : GremlinQuery) : GremlinQuery :=
  c.put "All()" []

/-- The `{0:s}` format applied by `GraphObject.V` to each node id: a string
formats as itself, while a tuple (or `None`, or a container) raises
`TypeError` and an `int` raises `ValueError`. -/
def formatS : PyVal → Except PErr String
  | .pStr s => .ok s
  | .pInt _ => .error .valueError
  | _ => .error .typeError

/-- The builder loop inside `GraphObject.V`: every id is wrapped in single
quotes, with a trailing comma after each id except the last. -/
def vBuilder : List PyVal → Except PErr String
  | [] => .ok ""
  | [x] => do
    let s ← formatS x
    .ok ("\x27" ++ s ++ "\x27")
  | x :: rest => do
    let s ← formatS x
    let r ← vBuilder rest
    .ok ("\x27" ++ s ++ "\x27," ++ r)

/-- `GraphObject.V(*node_ids)` (the reachable, variadic definition):
a `_Vertex` rooted at `g.V(...)` over the joined builder output. -/
def GraphObject.V (node_ids : List PyVal) : Except PErr GremlinQuery := do
  let b ← vBuilder node_ids
  .ok (pathInit ChainKind.vertex ("g.V(" ++ b ++ ")"))

/-- `GraphObject.M()`: a `_Morphism` rooted at `g.Morphism()`. -/
def GraphObject.M : GremlinQuery :=
  pathInit ChainKind.morphism "g.Morphism()"

/-- `GraphObject.Vertex(*node_ids)` (the reachable, variadic definition):
delegates to `V()` when no ids are given, and otherwise passes the whole
`node_ids` tuple to `V` as one argument instead of spreading it. -/
def GraphObject.Vertex (node_ids : List PyVal) : Except PErr GremlinQuery :=
  if node_ids.length = 0 then GraphObject.V []
  else GraphObject.V [PyVal.pTuple node_ids]

/-- The spec sentence for `Is` read literally: the ids joined by
comma-space inside one pair of quotes, i.e. one quoted run. -/
def isStepSpec (nodes : List String) : String :=
  "Is(\x27" ++ joinSep ", " nodes ++ "\x27)"

/-! ### Helper lemmas -/

theorem vBuilder_strs (ids : List String) :
    vBuilder (ids.map PyVal.pStr) =
      Except.ok (joinSep "," (ids.map (fun s => "\x27" ++ s ++ "\x27"))) := by
  induction ids with
  | nil => rfl
  | cons a rest ih =>
    cases rest with
    | nil => rfl
    | cons b rest2 =>
      simp only [List.map_cons] at ih ⊢
      simp only [vBuilder, formatS, ih, joinSep]
      have h2 : "\x27" ++ a ++ "\x27," ++
          joinSep "," (("\x27" ++ b ++ "\x27") :: rest2.map (fun s => "\x27" ++ s ++ "\x27")) =
          "\x27" ++ a ++ "\x27" ++ "," ++
          joinSep "," (("\x27" ++ b ++ "\x27") :: rest2.map (fun s => "\x27" ++ s ++ "\x27")) := by
        rw [show ("\x27," : String) = "\x27" ++ "," from rfl]
        simp [String.append_assoc]
      exact congrArg Except.ok h2

/-! ### The claims -/

/-- C1: the spec requires `addAll(quads)` to store the set-union merge as
the new content; the code computes `self.quads | set(quads)` and discards
the result, so the stored content never changes (and on the
default-constructed list content the `|` operator raises `TypeError`).
This theorem evaluates the code at the failing input: the content of a
set-backed `CayleyQuads` is untouched by `add_quads`, even when the
argument brings a genuinely new quad. -/
theorem c1_addAll_discards_merge :
    (∀ (s : Finset CayleyQuad) (qs : List CayleyQuad),
      add_quads (QuadsContent.pset s) qs = Except.ok (QuadsContent.pset s)) ∧
    add_quads (QuadsContent.pset {⟨some "a", some "b", some "c", Option.none⟩})
        [⟨some "x", some "y", some "z", Option.none⟩] =
      Except.ok (QuadsContent.pset {⟨some "a", some "b", some "c", Option.none⟩}) ∧
    ({⟨some "a", some "b", some "c", Option.none⟩} : Finset CayleyQuad) ∪
        {⟨some "x", some "y", some "z", Option.none⟩} ≠
      {⟨some "a", some "b", some "c", Option.none⟩} ∧
    (∀ qs : List CayleyQuad, add_quads (quadsInit Option.none) qs =
      Except.error PErr.typeError) := by
  refine ⟨fun s qs => rfl, rfl, by decide, fun qs => rfl⟩

/-- C4: the claim covers a freshly constructed empty `QuadSet`, but
`CayleyQuads.__init__` defaults the content to the list literal `[]`
(despite its own docstring declaring `set[CayleyQuad]`), and a list has no
`add` method, so `add_quad` on the fresh instance raises `AttributeError`
instead of inserting.  On a set-backed instance the add is idempotent as
claimed: adding two equal quads yields a one-element set. -/
theorem c4_add_quad_fresh_list_bug :
    (∀ q : CayleyQuad, add_quad (quadsInit Option.none) q =
      Except.error PErr.attributeError) ∧
    (∀ (s : Finset CayleyQuad) (q : CayleyQuad),
      (add_quad (QuadsContent.pset s) q).bind (fun c => add_quad c q) =
        add_quad (QuadsContent.pset s) q) ∧
    (∀ q : CayleyQuad,
      (add_quad (QuadsContent.pset ∅) q).bind (fun c => add_quad c q) =
        Except.ok (QuadsContent.pset {q}) ∧ ({q} : Finset CayleyQuad).card = 1) := by
  refine ⟨fun q => rfl, fun s q => ?_, fun q => ⟨?_, Finset.card_singleton q⟩⟩
  · simp [add_quad, Except.bind, Finset.insert_idem]
  · simp [add_quad, Except.bind, Finset.insert_idem]

/-- C5: `CayleyQuad.__hash__` is the sum of the four fields' individual
hashes weighted by 3, 5, 7, 11 (subject, predicate, object, label); equal
canonical fields give equal hashes for every underlying string-hash
function, and an absent label always contributes the fixed hash of `None`,
weighted by 11. -/
theorem c5_quad_hash (hstr : String → Int) (hnone : Int) (q1 q2 : CayleyQuad)
    (h : q1.subject = q2.subject ∧ q1.predicate = q2.predicate ∧
      q1.object = q2.object ∧ q1.label = q2.label) :
    quadHash hstr hnone q1 =
      3 * optHash hstr hnone q1.subject + 5 * optHash hstr hnone q1.predicate +
        7 * optHash hstr hnone q1.object + 11 * optHash hstr hnone q1.label ∧
    quadHash hstr hnone q1 = quadHash hstr hnone q2 ∧
    (q1.label = Option.none →
      quadHash hstr hnone q1 =
        3 * optHash hstr hnone q1.subject + 5 * optHash hstr hnone q1.predicate +
          7 * optHash hstr hnone q1.object + 11 * hnone) := by
  refine ⟨rfl, ?_, ?_⟩
  · unfold quadHash
    rw [h.1, h.2.1, h.2.2.1, h.2.2.2]
  · intro hl
    unfold quadHash
    rw [hl]
    rfl

theorem c5_quad_hash_witness :
    quadHash (fun s => (s.length : Int)) 37 ⟨some "a", some "b", some "c", Option.none⟩ =
      3 * 1 + 5 * 1 + 7 * 1 + 11 * 37 := by
  have h := (c5_quad_hash (fun s => (s.length : Int)) 37
    ⟨some "a", some "b", some "c", Option.none⟩
    ⟨some "a", some "b", some "c", Option.none⟩ ⟨rfl, rfl, rfl, rfl⟩).2.2 rfl
  simpa [optHash] using h

/-- C10: with one or more ids, `GraphObject.Vertex` hands the whole tuple
to `V` as a single argument instead of spreading it; `V` then formats the
tuple with the `{0:s}` string format specifier, which raises `TypeError`,
so the call never builds a chain.  Only the zero-id call delegates to `V()`
and yields the `g.V()` root. -/
theorem c10_vertex_forwards_tuple (args : List PyVal) (h : args ≠ []) :
    GraphObject.Vertex args = GraphObject.V [PyVal.pTuple args] ∧
    GraphObject.Vertex args = Except.error PErr.typeError ∧
    GraphObject.Vertex [] = Except.ok (pathInit ChainKind.vertex "g.V()") := by
  have hlen : ¬ args.length = 0 := by
    intro h0
    exact h (List.length_eq_zero.mp h0)
  refine ⟨?_, ?_, rfl⟩
  · unfold GraphObject.Vertex
    rw [if_neg hlen]
  · unfold GraphObject.Vertex
    rw [if_neg hlen]
    rfl

theorem c10_vertex_forwards_tuple_witness :
    GraphObject.Vertex [PyVal.pStr "alice"] = Except.error PErr.typeError :=
  (c10_vertex_forwards_tuple [PyVal.pStr "alice"] (by simp)).2.1

/-- C3: an argument that is neither the compatible chain variant
(`_Vertex` for `Intersect`/`Union`, `_Morphism` for `Follow`/`FollowR`) nor
raw text makes each of the four methods raise the invalid-parameter
exception, leaving the chain's step sequence and serialized form exactly as
they were: no step is appended on failure.  `x` covers every non-chain,
non-text value; `gm` and `gv` cover the incompatible chain variant for each
method group. -/
theorem c3_invalid_chain_arg_rejected (c : GremlinQuery) (x : QArg)
    (gm gv : GremlinQuery)
    (hv : x.isVertexInst = false) (hm : x.isMorphismInst = false)
    (hs : x.isStr = false)
    (hgm : gm.kind = ChainKind.morphism) (hgv : gv.kind = ChainKind.vertex) :
    c.Intersect x = (c, some PErr.invalidParameter) ∧
    c.Union x = (c, some PErr.invalidParameter) ∧
    c.Follow x = (c, some PErr.invalidParameter) ∧
    c.FollowR x = (c, some PErr.invalidParameter) ∧
    c.Intersect (QArg.chainArg gm) = (c, some PErr.invalidParameter) ∧
    c.Union (QArg.chainArg gm) = (c, some PErr.invalidParameter) ∧
    c.Follow (QArg.chainArg gv) = (c, some PErr.invalidParameter) ∧
    c.FollowR (QArg.chainArg gv) = (c, some PErr.invalidParameter) ∧
    (c.Intersect x).1.str = c.str ∧
    (c.Intersect x).1.queryDeclarations = c.queryDeclarations ∧
    (c.Union x).1.queryDeclarations = c.queryDeclarations ∧
    (c.Follow x).1.queryDeclarations = c.queryDeclarations ∧
    (c.FollowR x).1.queryDeclarations = c.queryDeclarations := by
  have hmv : QArg.isVertexInst (QArg.chainArg gm) = false := by
    simp [QArg.isVertexInst, hgm]
  have hms : QArg.isStr (QArg.chainArg gm) = false := rfl
  have hvm : QArg.isMorphismInst (QArg.chainArg gv) = false := by
    simp [QArg.isMorphismInst, hgv]
  have hvs : QArg.isStr (QArg.chainArg gv) = false := rfl
  simp [GremlinQuery.Intersect, GremlinQuery.Union, GremlinQuery.Follow,
    GremlinQuery.FollowR, hv, hm, hs, hmv, hms, hvm, hvs]

theorem c3_invalid_chain_arg_rejected_witness :
    (pathInit ChainKind.vertex "g.V()").Intersect (QArg.intArg 3) =
      (pathInit ChainKind.vertex "g.V()", some PErr.invalidParameter) ∧
    (pathInit ChainKind.vertex "g.V()").Follow
        (QArg.chainArg (pathInit ChainKind.vertex "g.V()")) =
      (pathInit ChainKind.vertex "g.V()", some PErr.invalidParameter) := by
  have h := c3_invalid_chain_arg_rejected (pathInit ChainKind.vertex "g.V()")
    (QArg.intArg 3) GraphObject.M (pathInit ChainKind.vertex "g.V()")
    rfl rfl rfl rfl rfl
  exact ⟨h.1, h.2.2.2.2.2.2.2.1⟩

/-- C7: the reachable `GraphObject.V` builds a `_Vertex` whose root step is
`g.V()` for zero ids and `g.V('id1','id2',...)` for one or more ids, each
id individually single-quoted and comma-joined with no trailing comma; in
particular `vertices().All().build()` is `g.V().All()` and
`vertices("alice","bob").build()` is `g.V('alice','bob')`. -/
theorem c7_vertices_root (ids : List String) :
    GraphObject.V (ids.map PyVal.pStr) =
      Except.ok (pathInit ChainKind.vertex
        ("g.V(" ++ joinSep "," (ids.map (fun s => "\x27" ++ s ++ "\x27")) ++ ")")) ∧
    (GraphObject.V (ids.map PyVal.pStr)).map GremlinQuery.build =
      Except.ok ("g.V(" ++ joinSep "," (ids.map (fun s => "\x27" ++ s ++ "\x27")) ++ ")") ∧
    GraphObject.V [] = Except.ok (pathInit ChainKind.vertex "g.V()") ∧
    (GraphObject.V []).map (fun c => c.All.build) = Except.ok "g.V().All()" ∧
    (GraphObject.V [PyVal.pStr "alice", PyVal.pStr "bob"]).map GremlinQuery.build =
      Except.ok "g.V(\x27alice\x27,\x27bob\x27)" := by
  have hV : GraphObject.V (ids.map PyVal.pStr) =
      Except.ok (pathInit ChainKind.vertex
        ("g.V(" ++ joinSep "," (ids.map (fun s => "\x27" ++ s ++ "\x27")) ++ ")")) := by
    unfold GraphObject.V
    rw [vBuilder_strs]
    rfl
  refine ⟨hV, ?_, rfl, rfl, rfl⟩
  rw [hV]
  rfl

/-- C8, counterexample: at `nodes = ["a", "b"]` the step emitted by `Is`
serializes with each id individually quoted — two quoted tokens, not the
single quoted comma-separated run the claim describes. -/
theorem c8_is_single_run_counterexample :
    ((pathInit ChainKind.vertex "g.V()").Is ["a", "b"]).build =
      "g.V().Is(\x27a\x27, \x27b\x27)" ∧
    isStepSpec ["a", "b"] = "Is(\x27a, b\x27)" ∧
    QueryDefinition.render ⟨"Is(\x27%s\x27)", [joinSep "\x27, \x27" ["a", "b"]]⟩ ≠
      isStepSpec ["a", "b"] := by
  refine ⟨rfl, rfl, ?_⟩
  decide

theorem interp_is_token (x : String) :
    String.mk (interpCh ("Is(\x27%s\x27)").data [x]) = "Is(\x27" ++ x ++ "\x27)" := by
  have hd : ("Is(\x27%s\x27)").data = ['I', 's', '(', '\x27', '%', 's', '\x27', ')'] := rfl
  rw [hd]
  obtain ⟨xd⟩ := x
  simp only [interpCh]
  refine congrArg String.mk ?_
  simp

/-- C8, amended: `Is(...nodeIds)` appends exactly one step; its single
parameter is the ids joined by the separator quote-comma-space-quote, and
the token wraps that run in one further pair of quotes, so the serialized
step reads `Is('a', 'b')` for two ids — each id ends up individually
quoted, not one quoted comma-separated run. -/
theorem c8_is_step_amended (c : GremlinQuery) (nodes : List String) :
    (c.Is nodes).queryDeclarations =
      c.queryDeclarations ++ [⟨"Is(\x27%s\x27)", [joinSep "\x27, \x27" nodes]⟩] ∧
    QueryDefinition.render ⟨"Is(\x27%s\x27)", [joinSep "\x27, \x27" nodes]⟩ =
      "Is(\x27" ++ joinSep "\x27, \x27" nodes ++ "\x27)" := by
  constructor
  · rfl
  · unfold QueryDefinition.render
    rw [if_neg (by simp)]
    exact interp_is_token (joinSep "\x27, \x27" nodes)

/-- C2, counterexample: at the non-Quad value `5`, both coercions fail —
`from_dict` with the quad-validation error, `from_json` with `TypeError`
(since `json.loads` rejects a non-string argument with `TypeError`, which
`from_json` does not catch) — yet `__eq__` does not return `False`: the
`TypeError` escapes, contradicting the claim that a double coercion failure
returns false without raising. -/
theorem c2_eq_raises_counterexample :
    from_dict (PyVal.pInt 5) = Except.error PErr.notAValidQuad ∧
    from_json (fun _ => Except.error ()) (PyVal.pInt 5) = Except.error PErr.typeError ∧
    quadEq (fun _ => Except.error ()) ⟨some "a", some "b", some "c", Option.none⟩
        (PyVal.pInt 5) = Except.error PErr.typeError :=
  ⟨rfl, rfl, rfl⟩

/-- C2, amended: `__eq__` coerces a non-Quad value via `from_dict` first
and `from_json` second, and returns `False` without raising exactly when
both coercions fail with the quad-validation error (`NotAValidQuadError`);
a coercion failure of any other kind — such as the `TypeError` from parsing
a non-text value, or an `AttributeError` from non-text field values —
propagates as an exception instead. -/
theorem c2_eq_coercion_amended (jload : String → Except Unit PyVal)
    (q : CayleyQuad) (v : PyVal)
    (hd : from_dict v = Except.error PErr.notAValidQuad)
    (hj : from_json jload v = Except.error PErr.notAValidQuad) :
    quadEq jload q v = Except.ok false := by
  cases v with
  | pQuad r => simp [from_json] at hj
  | pStr s => simp only [quadEq]; rw [hd]; simp only []; rw [hj]
  | pInt n => simp only [quadEq]; rw [hd]; simp only []; rw [hj]
  | pNone => simp only [quadEq]; rw [hd]; simp only []; rw [hj]
  | pDict e => simp only [quadEq]; rw [hd]; simp only []; rw [hj]
  | pList e => simp only [quadEq]; rw [hd]; simp only []; rw [hj]
  | pTuple e => simp only [quadEq]; rw [hd]; simp only []; rw [hj]

theorem c2_eq_coercion_amended_witness :
    quadEq (fun _ => Except.error ()) ⟨some "a", some "b", some "c", Option.none⟩
        (PyVal.pStr "\x7bnot json") = Except.ok false :=
  c2_eq_coercion_amended (fun _ => Except.error ())
    ⟨some "a", some "b", some "c", Option.none⟩ (PyVal.pStr "\x7bnot json") rfl rfl

/-- C9: `from_dict` raises the quad-validation error for every record
missing a required key (subject, predicate or object) and for every record
containing a field name the constructor does not accept, and `from_json`
raises it for every text the JSON decoder rejects (wrapping the underlying
`ValueError`); in particular `from_json` on the text `{not json` raises it
for every decoder that rejects that text, as any correct JSON decoder
does. -/
theorem c9_invalid_record_and_text (e1 e2 : List (String × PyVal)) (k : String)
    (jload : String → Except Unit PyVal) (s : String)
    (h1 : "subject" ∉ e1.map Prod.fst ∨ "predicate" ∉ e1.map Prod.fst ∨
      "object" ∉ e1.map Prod.fst)
    (h2 : k ∈ e2.map Prod.fst) (h2b : k ∉ allowedKeys)
    (h3 : jload s = Except.error ()) :
    from_dict (PyVal.pDict e1) = Except.error PErr.notAValidQuad ∧
    from_dict (PyVal.pDict e2) = Except.error PErr.notAValidQuad ∧
    from_json jload (PyVal.pStr s) = Except.error PErr.notAValidQuad := by
  refine ⟨?_, ?_, ?_⟩
  · show (if ((e1.map Prod.fst).contains "subject" && (e1.map Prod.fst).contains "predicate" &&
        (e1.map Prod.fst).contains "object" &&
        (e1.map Prod.fst).all fun k => allowedKeys.contains k) = true then
        quadInit ((List.lookup "subject" e1).getD PyVal.pNone)
          ((List.lookup "predicate" e1).getD PyVal.pNone)
          ((List.lookup "object" e1).getD PyVal.pNone)
          ((List.lookup "label" e1).getD PyVal.pNone)
      else Except.error PErr.notAValidQuad) = Except.error PErr.notAValidQuad
    rw [if_neg ?_]
    intro hc
    rw [Bool.and_eq_true, Bool.and_eq_true, Bool.and_eq_true] at hc
    rcases h1 with hm | hm | hm
    · rw [show ((e1.map Prod.fst).contains "subject") = false by simpa using hm] at hc
      simp at hc
    · rw [show ((e1.map Prod.fst).contains "predicate") = false by simpa using hm] at hc
      simp at hc
    · rw [show ((e1.map Prod.fst).contains "object") = false by simpa using hm] at hc
      simp at hc
  · show (if ((e2.map Prod.fst).contains "subject" && (e2.map Prod.fst).contains "predicate" &&
        (e2.map Prod.fst).contains "object" &&
        (e2.map Prod.fst).all fun k => allowedKeys.contains k) = true then
        quadInit ((List.lookup "subject" e2).getD PyVal.pNone)
          ((List.lookup "predicate" e2).getD PyVal.pNone)
          ((List.lookup "object" e2).getD PyVal.pNone)
          ((List.lookup "label" e2).getD PyVal.pNone)
      else Except.error PErr.notAValidQuad) = Except.error PErr.notAValidQuad
    rw [if_neg ?_]
    intro hc
    rw [Bool.and_eq_true] at hc
    have hall : ((e2.map Prod.fst).all (fun x => allowedKeys.contains x)) = false := by
      rw [List.all_eq_false]
      exact ⟨k, h2, by simpa using h2b⟩
    rw [hall] at hc
    simp at hc
  · show (match jload s with
      | .error _ => Except.error PErr.notAValidQuad
      | .ok parsed => from_dict parsed) = Except.error PErr.notAValidQuad
    rw [h3]


theorem c9_invalid_record_and_text_witness :
    from_dict (PyVal.pDict []) = Except.error PErr.notAValidQuad ∧
    from_dict (PyVal.pDict [("foo", PyVal.pNone)]) = Except.error PErr.notAValidQuad ∧
    from_json (fun _ => Except.error ()) (PyVal.pStr "\x7bnot json") =
      Except.error PErr.notAValidQuad :=
  c9_invalid_record_and_text [] [("foo", PyVal.pNone)] "foo"
    (fun _ => Except.error ()) "\x7bnot json" (Or.inl (by simp)) (by simp)
    (by decide) rfl

theorem cleanVal_optVal (x : Option String) :
    cleanVal (optVal x) = Except.ok (x.map pyClean) := by
  cases x <;> rfl

theorem quadInit_optVal (s p o l : Option String) :
    quadInit (optVal s) (optVal p) (optVal o) (optVal l) =
      Except.ok ⟨s.map pyClean, p.map pyClean, o.map pyClean, l.map pyClean⟩ := by
  unfold quadInit
  rw [cleanVal_optVal, cleanVal_optVal, cleanVal_optVal, cleanVal_optVal]
  rfl

theorem from_dict_three (vs vp vo : PyVal) :
    from_dict (PyVal.pDict [("subject", vs), ("predicate", vp), ("object", vo)]) =
      quadInit vs vp vo PyVal.pNone := rfl

theorem from_dict_four (vs vp vo vl : PyVal) :
    from_dict (PyVal.pDict
        [("subject", vs), ("predicate", vp), ("object", vo), ("label", vl)]) =
      quadInit vs vp vo vl := rfl

theorem opt_clean_idem (x : Option String) :
    (x.map pyClean).map pyClean = x.map pyClean := by
  cases x <;> simp [pyClean_idem]

/-- C6: for every constructible Quad, `from_dict` applied to `to_dict`
succeeds and returns a Quad with identical fields (so `equals` holds), and
`to_dict` omits the `label` key entirely when the label is absent.  The
round trip relies on `_clean` being idempotent, proved above. -/
theorem c6_record_roundtrip (s p o l : Option String) (q : CayleyQuad)
    (hq : quadInit (optVal s) (optVal p) (optVal o) (optVal l) = Except.ok q) :
    from_dict (PyVal.pDict q.to_dict) = Except.ok q ∧
    (q.label = Option.none → q.to_dict.map Prod.fst = ["subject", "predicate", "object"]) := by
  rw [quadInit_optVal] at hq
  injection hq with hq
  subst hq
  constructor
  · cases l with
    | none =>
      show from_dict (PyVal.pDict
        [("subject", optVal (s.map pyClean)), ("predicate", optVal (p.map pyClean)),
         ("object", optVal (o.map pyClean))]) = _
      rw [from_dict_three,
        show PyVal.pNone = optVal Option.none from rfl, quadInit_optVal,
        opt_clean_idem, opt_clean_idem, opt_clean_idem]
    | some lv =>
      show from_dict (PyVal.pDict
        [("subject", optVal (s.map pyClean)), ("predicate", optVal (p.map pyClean)),
         ("object", optVal (o.map pyClean)), ("label", PyVal.pStr (pyClean lv))]) = _
      rw [from_dict_four,
        show PyVal.pStr (pyClean lv) = optVal (some (pyClean lv)) from rfl,
        quadInit_optVal, opt_clean_idem, opt_clean_idem, opt_clean_idem]
      simp [pyClean_idem]
  · intro hl
    cases l with
    | none => rfl
    | some lv => simp at hl


theorem c6_record_roundtrip_witness :
    from_dict (PyVal.pDict
        (CayleyQuad.to_dict ⟨some "a_b", some "c", some "d", Option.none⟩)) =
      Except.ok ⟨some "a_b", some "c", some "d", Option.none⟩ ∧
    (CayleyQuad.to_dict ⟨some "a_b", some "c", some "d", Option.none⟩).map Prod.fst =
      ["subject", "predicate", "object"] := by
  have h := c6_record_roundtrip (some " A b") (some "c") (some "d") Option.none
    ⟨some "a_b", some "c", some "d", Option.none⟩ rfl
  exact ⟨h.1, h.2 rfl⟩

end Pyley
